import Mathlib

set_option maxHeartbeats 1000000

/-!
Shallow embedding of src/cloudwatch_mcp_server.py: a CloudWatch-logs MCP
server that fetches AWS Bedrock invocation log events, extracts a fixed
field set from each event message, and aggregates token usage by model,
user and day.  External collaborators (boto3 pagination, pydantic
validation, pandas cell-level datetime parsing) are modelled at their
observable interfaces; everything the Python file itself computes is
translated directly.
-/

mutual

/-- Python-style JSON value, the result of a successful json.loads call. -/
inductive Json where
  | null
  | bool (b : Bool)
  | num (n : Int)
  | str (s : String)
  | arr (elems : JsonArr)
  | obj (fields : JsonObj)
  deriving DecidableEq

/-- Elements of a JSON array. -/
inductive JsonArr where
  | nil
  | cons (hd : Json) (tl : JsonArr)
  deriving DecidableEq

/-- Key-value entries of a JSON object (a Python dict, keys unique). -/
inductive JsonObj where
  | nil
  | cons (key : String) (val : Json) (tl : JsonObj)
  deriving DecidableEq

end

/-- Python dict lookup of a string key. -/
def JsonObj.lookup : JsonObj → String → Option Json
  | .nil, _ => none
  | .cons k v tl, key => if k = key then some v else tl.lookup key

/-- Elements of a JSON array as a Lean list. -/
def JsonArr.toList : JsonArr → List Json
  | .nil => []
  | .cons x tl => x :: tl.toList

/-- Keys of a JSON object in order, as Python dict iteration yields them. -/
def JsonObj.keys : JsonObj → List String
  | .nil => []
  | .cons k _ tl => k :: tl.keys

/-- Concatenation of two JSON arrays (Python list +). -/
def JsonArr.append : JsonArr → JsonArr → JsonArr
  | .nil, ys => ys
  | .cons x tl, ys => .cons x (tl.append ys)

/-- Convenience constructor for object literals. -/
def Json.mkObj (l : List (String × Json)) : Json :=
  .obj (l.foldr (fun p acc => .cons p.1 p.2 acc) .nil)

/-- Convenience constructor for array literals. -/
def Json.mkArr (l : List Json) : Json :=
  .arr (l.foldr .cons .nil)

deriving instance DecidableEq for Except

/-- Python exceptions that the per-event extraction code can raise. -/
inductive PyExc where
  | jsonDecodeError
  | keyError
  | attributeError
  | typeError
  deriving DecidableEq

/-- Python truthiness of a JSON value. -/
def Json.truthy : Json → Bool
  | .null => false
  | .bool b => b
  | .num n => n != 0
  | .str s => s != ""
  | .arr .nil => false
  | .arr _ => true
  | .obj .nil => false
  | .obj _ => true

/-- Python dict method call j.get(k, d): returns the stored value or the
default d, and raises AttributeError when the receiver is not a dict. -/
def Json.get (j : Json) (k : String) (d : Json) : Except PyExc Json :=
  match j with
  | .obj fs => .ok ((fs.lookup k).getD d)
  | _ => .error .attributeError

/-- Python subscript j[k] with a string key: KeyError on a dict missing the
key, TypeError when the receiver is not a dict. -/
def Json.index (j : Json) (k : String) : Except PyExc Json :=
  match j with
  | .obj fs =>
    match fs.lookup k with
    | some v => .ok v
    | none => .error .keyError
  | _ => .error .typeError

/-- Python iteration over a JSON value: lists yield their elements, strings
yield their characters, dicts yield their keys; other values raise
TypeError. -/
def Json.pyIter : Json → Except PyExc (List Json)
  | .arr xs => .ok xs.toList
  | .str s => .ok (s.toList.map (fun c => .str (String.singleton c)))
  | .obj fs => .ok (fs.keys.map Json.str)
  | _ => .error .typeError

/-- Python binary + on JSON values: numbers add (bools count as 0/1),
strings and lists concatenate, every other combination raises TypeError. -/
def pyAdd : Json → Json → Except PyExc Json
  | .num a, .num b => .ok (.num (a + b))
  | .num a, .bool b => .ok (.num (a + (if b then 1 else 0)))
  | .bool a, .num b => .ok (.num ((if a then 1 else 0) + b))
  | .bool a, .bool b => .ok (.num ((if a then 1 else 0) + (if b then 1 else 0)))
  | .str a, .str b => .ok (.str (a ++ b))
  | .arr a, .arr b => .ok (.arr (a.append b))
  | _, _ => .error .typeError

/-- Inner loop over content entries of one message (source lines 68-70):
append every truthy text value followed by a space.  The source reads the
value back with content["text"] after the truthy guard, which yields the
same value; string concatenation requires the value to be a str, any other
truthy value raises TypeError on + " ". -/
def promptFromContents : List Json → String → Except PyExc String
  | [], acc => .ok acc
  | c :: rest, acc => do
    let t ← c.get "text" Json.null
    if t.truthy then
      match t with
      | .str s => promptFromContents rest (acc ++ s ++ " ")
      | _ => .error .typeError
    else
      promptFromContents rest acc

/-- Loop over the messages list (source lines 66-71): for each message with
role "user" and truthy content, walk its content entries. -/
def promptFromMessages : List Json → String → Except PyExc String
  | [], acc => .ok acc
  | m :: rest, acc => do
    let role ← m.get "role" Json.null
    if role = Json.str "user" then do
      let content ← m.get "content" Json.null
      if content.truthy then do
        let cval ← m.index "content"
        let citems ← cval.pyIter
        let acc2 ← promptFromContents citems acc
        promptFromMessages rest acc2
      else
        promptFromMessages rest acc
    else
      promptFromMessages rest acc

/-- Prompt construction (source lines 60-71): the guard evaluates the
chained .get lookups; when truthy, the same path is re-read with subscripts
and iterated, and the accumulated prompt is stripped. -/
def extractPrompt (message : Json) : Except PyExc String := do
  let a ← message.get "input" (Json.obj .nil)
  let b ← a.get "inputBodyJson" (Json.obj .nil)
  let g ← b.get "messages" Json.null
  if g.truthy then do
    let m1 ← message.index "input"
    let m2 ← m1.index "inputBodyJson"
    let msgs ← m2.index "messages"
    let items ← msgs.pyIter
    let p ← promptFromMessages items ""
    pure p.trim
  else
    pure ""

/-- Result of json.loads on one event message: either a parsed value or a
JSONDecodeError. -/
inductive RawMessage where
  | parsed (j : Json)
  | invalid
  deriving DecidableEq

/-- Flat record built at source lines 74-87.  inputTokens and
completionTokens are projected with no default (None when absent);
totalTokens is the Python sum of the two token counts with default 0. -/
structure FilteredEvent where
  timestamp : Json
  region : Json
  modelId : Json
  userId : Json
  inputTokens : Json
  completionTokens : Json
  totalTokens : Json
  deriving DecidableEq

/-- Per-event body of the extraction loop (source lines 55-89), before the
two per-event exception handlers are applied. -/
def processEvent : RawMessage → Except PyExc FilteredEvent
  | .invalid => .error .jsonDecodeError
  | .parsed message => do
    let _prompt ← extractPrompt message
    let ts ← message.get "timestamp" Json.null
    let rg ← message.get "region" Json.null
    let mid ← message.get "modelId" Json.null
    let ident ← message.get "identity" (Json.obj .nil)
    let uid ← ident.get "arn" Json.null
    let inp ← message.get "input" (Json.obj .nil)
    let itc ← inp.get "inputTokenCount" Json.null
    let outp ← message.get "output" (Json.obj .nil)
    let otc ← outp.get "outputTokenCount" Json.null
    let inp2 ← message.get "input" (Json.obj .nil)
    let itc0 ← inp2.get "inputTokenCount" (Json.num 0)
    let outp2 ← message.get "output" (Json.obj .nil)
    let otc0 ← outp2.get "outputTokenCount" (Json.num 0)
    let total ← pyAdd itc0 otc0
    pure { timestamp := ts, region := rg, modelId := mid, userId := uid,
           inputTokens := itc, completionTokens := otc, totalTokens := total }

/-- One raw CloudWatch event; only its message field is read by the code. -/
structure RawLogEvent where
  message : RawMessage
  deriving DecidableEq

/-- Fetch-time faults raised by the pagination client. -/
inductive FetchErr where
  | resourceNotFound
  | otherError (msg : String)
  deriving DecidableEq

/-- Observable behavior of paginator.paginate for one call: the pages it
yields in order, then optionally an exception raised while fetching the
next page. -/
structure FetchBehavior where
  pages : List (List RawLogEvent)
  afterPages : Option FetchErr
  deriving DecidableEq

/-- Inner event loop (source lines 54-93): JSONDecodeError and KeyError are
caught per event and the event skipped; any other exception escapes the
loop. -/
def processEvents : List RawLogEvent → Except PyExc (List FilteredEvent)
  | [] => .ok []
  | e :: rest =>
    match processEvent e.message with
    | .ok fe => (processEvents rest).map (fun l => fe :: l)
    | .error .jsonDecodeError => processEvents rest
    | .error .keyError => processEvents rest
    | .error exc => .error exc

/-- Page loop (source line 53): filtered_logs accumulates across pages; an
escaped exception in any page abandons the whole loop. -/
def processPages : List (List RawLogEvent) → Except PyExc (List FilteredEvent)
  | [] => .ok []
  | p :: rest => do
    let a ← processEvents p
    let b ← processPages rest
    pure (a ++ b)

/-- Exception escaping the try block of get_bedrock_logs. -/
inductive TryErr where
  | py (e : PyExc)
  | fetch (e : FetchErr)
  deriving DecidableEq

/-- Body of the try block (source lines 39-95): process every yielded page;
if all events are handled, a pagination exception raised after the yielded
pages (if any) escapes next. -/
def tryBlock (fb : FetchBehavior) : Except TryErr (List FilteredEvent) :=
  match processPages fb.pages with
  | .error e => .error (.py e)
  | .ok logs =>
    match fb.afterPages with
    | none => .ok logs
    | some e => .error (.fetch e)

/-- Value returned by get_bedrock_logs together with the diagnostics it
prints. -/
structure LogsResult where
  logs : List FilteredEvent
  diagnostics : List String
  deriving DecidableEq

/-- Message printed by the ResourceNotFoundException handler (lines 98-100). -/
def notFoundDiagnostic : String :=
  "Log group \x27/aws/bedrock\x27 or stream \x27aws/bedrock/modelinvocations\x27 not found"

/-- Rendering of str(e) for the modelled exceptions. -/
def TryErr.describe : TryErr → String
  | .py .jsonDecodeError => "JSONDecodeError"
  | .py .keyError => "KeyError"
  | .py .attributeError => "AttributeError"
  | .py .typeError => "TypeError"
  | .fetch .resourceNotFound => "ResourceNotFoundException"
  | .fetch (.otherError s) => s

/-- Message printed by the generic handler (line 103). -/
def errorDiagnostic (e : TryErr) : String := "Error retrieving logs: " ++ e.describe

/-- Python int() truncation toward zero on a rational. -/
def pyInt (q : Rat) : Int := if 0 ≤ q then ⌊q⌋ else ⌈q⌉

/-- Time-window computation (source lines 30-35): now_ts is
datetime.now().timestamp() in epoch seconds; the window is
[now - days_back days, now] converted to integer milliseconds. -/
def timeWindowMs (now_ts : Rat) (days_back : Int) : Int × Int :=
  (pyInt ((now_ts - days_back * 86400) * 1000), pyInt (now_ts * 1000))

/-- get_bedrock_logs (source lines 16-104).  world maps the queried
millisecond window to the paginator behavior the log service exhibits for
it; the try/except handlers turn ResourceNotFoundException into an empty
list with a not-found diagnostic and every other exception into an empty
list with a generic diagnostic. -/
def get_bedrock_logs (now_ts : Rat) (world : Int × Int → FetchBehavior)
    (days_back : Int) : LogsResult :=
  match tryBlock (world (timeWindowMs now_ts days_back)) with
  | .ok logs => { logs := logs, diagnostics := [] }
  | .error (.fetch .resourceNotFound) => { logs := [], diagnostics := [notFoundDiagnostic] }
  | .error e => { logs := [], diagnostics := [errorDiagnostic e] }

/-- Parameter model of the tools (source lines 107-110): a pydantic model
with a single int field days defaulting to 7 and no range constraint. -/
structure DaysParam where
  days : Int
  deriving DecidableEq

/-- Argument supplied for the days field of a tool call: absent, an
integer, or a value that pydantic cannot coerce to an integer. -/
inductive ParamVal where
  | missing
  | intVal (i : Int)
  | nonIntVal (desc : String)
  deriving DecidableEq

/-- Pydantic validation of DaysParam: an int field with default 7 accepts
every integer (there is no ge=0 constraint in the source), applies the
default when the field is absent, and rejects non-integer input with a
validation error. -/
def DaysParam.validate : ParamVal → Except String DaysParam
  | .missing => .ok { days := 7 }
  | .intVal i => .ok { days := i }
  | .nonIntVal d =>
    .error ("validation error for DaysParam: days: Input should be a valid integer, got " ++ d)

/-- Result of pd.to_datetime on one cell; none models NaT. -/
structure PyDateTime where
  date : Int
  msOfDay : Nat
  deriving DecidableEq

/-- Row of the DataFrame returned by get_bedrock_logs_df, after the
timestamp column is converted. -/
structure DfRow where
  timestamp : Option PyDateTime
  region : Json
  modelId : Json
  userId : Json
  inputTokens : Json
  completionTokens : Json
  totalTokens : Json
  deriving DecidableEq

/-- get_bedrock_logs_df (source lines 118-143): build the DataFrame from
the fetched records and, when it is non-empty, convert the timestamp
column with pd.to_datetime.  to_datetime models that external call on one
cell (ok none is NaT); a cell it cannot parse raises out of the tool. -/
def get_bedrock_logs_df (now_ts : Rat) (world : Int × Int → FetchBehavior)
    (to_datetime : Json → Except String (Option PyDateTime)) (params : DaysParam) :
    Except String (List DfRow) :=
  let logs := (get_bedrock_logs now_ts world params.days).logs
  if logs.isEmpty then
    .ok []
  else
    logs.mapM (fun e => (to_datetime e.timestamp).map (fun t =>
      { timestamp := t, region := e.region, modelId := e.modelId, userId := e.userId,
        inputTokens := e.inputTokens, completionTokens := e.completionTokens,
        totalTokens := e.totalTokens }))

/-- Numeric contents of a token column within one group: pandas skips null
cells; a non-null non-numeric cell makes the aggregation raise, modelled
as none. -/
def numsOf : List Json → Option (List Int)
  | [] => some []
  | Json.null :: rest => numsOf rest
  | Json.num n :: rest => (numsOf rest).map (fun l => n :: l)
  | _ => none

/-- Mean of the non-null cells; none models NaN for an empty set (pandas
mean with skipna). -/
def meanOf (l : List Int) : Option Rat :=
  if l.isEmpty then none else some ((l.sum : Rat) / (l.length : Rat))

/-- Round half to even, the rounding mode used by DataFrame.round. -/
def roundHalfEven (q : Rat) : Int :=
  if q - ⌊q⌋ < 1/2 then ⌊q⌋
  else if 1/2 < q - ⌊q⌋ then ⌊q⌋ + 1
  else if ⌊q⌋ % 2 = 0 then ⌊q⌋ else ⌊q⌋ + 1

/-- Rounding to two decimal places as performed by .round(2). -/
def pandasRound2 (q : Rat) : Rat := (roundHalfEven (q * 100) : Rat) / 100

/-- Aggregate metrics reported for one group: count, sum and mean of
inputTokens, sum and mean of completionTokens and totalTokens. -/
structure AggMetrics where
  inputCount : Nat
  inputSum : Int
  inputMean : Option Rat
  completionSum : Int
  completionMean : Option Rat
  totalSum : Int
  totalMean : Option Rat
  deriving DecidableEq

/-- The agg dict of the three stats tools applied to one group, before
rounding (source lines 164-170, 193-200, 223-230). -/
def aggMetricsOf (g : List DfRow) : Option AggMetrics :=
  match numsOf (g.map (fun r => r.inputTokens)),
        numsOf (g.map (fun r => r.completionTokens)),
        numsOf (g.map (fun r => r.totalTokens)) with
  | some ins, some comps, some tots =>
    some { inputCount := ins.length, inputSum := ins.sum, inputMean := meanOf ins,
           completionSum := comps.sum, completionMean := meanOf comps,
           totalSum := tots.sum, totalMean := meanOf tots }
  | _, _, _ => none

/-- The .round(2) step on one row of the aggregated table: integer cells
(count and sums) are unchanged by rounding to 2 decimals, means are
rounded. -/
def roundMetrics (m : AggMetrics) : AggMetrics :=
  { m with inputMean := m.inputMean.map pandasRound2,
           completionMean := m.completionMean.map pandasRound2,
           totalMean := m.totalMean.map pandasRound2 }

/-- Aggregation of one group; raises when a token column holds a non-null
non-numeric value (pandas mean raises TypeError there). -/
def aggGroup (g : List DfRow) : Except String AggMetrics :=
  match aggMetricsOf g with
  | some m => .ok (roundMetrics m)
  | none => .error "TypeError: could not aggregate a non-numeric column"

/-- pandas groupby: the distinct non-null keys, each paired with the rows
holding that key; rows with a null key are dropped. -/
def groupRows {κ : Type} [DecidableEq κ] (key : DfRow → Option κ)
    (df : List DfRow) : List (κ × List DfRow) :=
  (df.filterMap key).dedup.map (fun k => (k, df.filter (fun r => key r = some k)))

/-- Grouping key of get_model_usage_stats: the modelId cell, null dropped. -/
def modelKey (r : DfRow) : Option Json :=
  if r.modelId = Json.null then none else some r.modelId

/-- Grouping key of get_user_usage_stats: the userId cell, null dropped. -/
def userKey (r : DfRow) : Option Json :=
  if r.userId = Json.null then none else some r.userId

/-- Grouping key of get_daily_usage_stats: the date part of the converted
timestamp; NaT is dropped as a null key. -/
def dateKey (r : DfRow) : Option Int := r.timestamp.map (fun t => t.date)

/-- Shared grouped-aggregation driver: aggregate every group, building one
output row per group; fails if any group aggregation raises. -/
def buildTable {κ ρ : Type} (mk : κ × List DfRow → AggMetrics → ρ) :
    List (κ × List DfRow) → Except String (List ρ)
  | [] => .ok []
  | g :: rest => do
    let m ← aggGroup g.2
    let t ← buildTable mk rest
    pure (mk g m :: t)

/-- Body of get_model_usage_stats (source lines 159-172) given the
DataFrame. -/
def modelStatsTable (df : List DfRow) : Except String (List (Json × AggMetrics)) :=
  if df.isEmpty then .ok []
  else buildTable (fun g m => (g.1, m)) (groupRows modelKey df)

/-- Body of get_user_usage_stats (source lines 188-202): additionally
reports list(set(x)) of the modelId cells of the group. -/
def userStatsTable (df : List DfRow) : Except String (List (Json × AggMetrics × List Json)) :=
  if df.isEmpty then .ok []
  else buildTable (fun g m => (g.1, m, (g.2.map (fun r => r.modelId)).dedup))
    (groupRows userKey df)

/-- Body of get_daily_usage_stats (source lines 218-232): groups by the
calendar date of the converted timestamp. -/
def dailyStatsTable (df : List DfRow) : Except String (List (Int × AggMetrics × List Json)) :=
  if df.isEmpty then .ok []
  else buildTable (fun g m => (g.1, m, (g.2.map (fun r => r.modelId)).dedup))
    (groupRows dateKey df)

/-- get_model_usage_stats (source lines 147-172). -/
def get_model_usage_stats (now_ts : Rat) (world : Int × Int → FetchBehavior)
    (to_datetime : Json → Except String (Option PyDateTime)) (params : DaysParam) :
    Except String (List (Json × AggMetrics)) := do
  let df ← get_bedrock_logs_df now_ts world to_datetime params
  modelStatsTable df

/-- get_user_usage_stats (source lines 176-202). -/
def get_user_usage_stats (now_ts : Rat) (world : Int × Int → FetchBehavior)
    (to_datetime : Json → Except String (Option PyDateTime)) (params : DaysParam) :
    Except String (List (Json × AggMetrics × List Json)) := do
  let df ← get_bedrock_logs_df now_ts world to_datetime params
  userStatsTable df

/-- get_daily_usage_stats (source lines 206-232). -/
def get_daily_usage_stats (now_ts : Rat) (world : Int × Int → FetchBehavior)
    (to_datetime : Json → Except String (Option PyDateTime)) (params : DaysParam) :
    Except String (List (Int × AggMetrics × List Json)) := do
  let df ← get_bedrock_logs_df now_ts world to_datetime params
  dailyStatsTable df

/-- Error surfaced to the MCP caller by a tool invocation: either a
pydantic parameter-validation error raised before the tool body runs, or
an exception raised inside the tool body. -/
inductive ToolCallErr where
  | paramError (msg : String)
  | raised (msg : String)
  deriving DecidableEq

/-- Full call of the get_bedrock_logs_df tool: validate the days argument,
then run the tool body. -/
def call_get_bedrock_logs_df (now_ts : Rat) (world : Int × Int → FetchBehavior)
    (to_datetime : Json → Except String (Option PyDateTime)) (raw : ParamVal) :
    Except ToolCallErr (List DfRow) :=
  match DaysParam.validate raw with
  | .error m => .error (.paramError m)
  | .ok p => (get_bedrock_logs_df now_ts world to_datetime p).mapError .raised

/-- Full call of the get_model_usage_stats tool. -/
def call_get_model_usage_stats (now_ts : Rat) (world : Int × Int → FetchBehavior)
    (to_datetime : Json → Except String (Option PyDateTime)) (raw : ParamVal) :
    Except ToolCallErr (List (Json × AggMetrics)) :=
  match DaysParam.validate raw with
  | .error m => .error (.paramError m)
  | .ok p => (get_model_usage_stats now_ts world to_datetime p).mapError .raised

/-- Full call of the get_user_usage_stats tool. -/
def call_get_user_usage_stats (now_ts : Rat) (world : Int × Int → FetchBehavior)
    (to_datetime : Json → Except String (Option PyDateTime)) (raw : ParamVal) :
    Except ToolCallErr (List (Json × AggMetrics × List Json)) :=
  match DaysParam.validate raw with
  | .error m => .error (.paramError m)
  | .ok p => (get_user_usage_stats now_ts world to_datetime p).mapError .raised

/-- Full call of the get_daily_usage_stats tool. -/
def call_get_daily_usage_stats (now_ts : Rat) (world : Int × Int → FetchBehavior)
    (to_datetime : Json → Except String (Option PyDateTime)) (raw : ParamVal) :
    Except ToolCallErr (List (Int × AggMetrics × List Json)) :=
  match DaysParam.validate raw with
  | .error m => .error (.paramError m)
  | .ok p => (get_daily_usage_stats now_ts world to_datetime p).mapError .raised

/-- Claim-side: a record cell with a null (absent) value treated as 0. -/
def orZero (v : Json) : Json := if v = Json.null then Json.num 0 else v

/-- Claim-side: the envelope field outer.inner, none when either level is
absent (or outer does not hold an object). -/
def envField (j : Json) (outer inner : String) : Option Json :=
  match j with
  | .obj fs =>
    match fs.lookup outer with
    | some (.obj gs) => gs.lookup inner
    | _ => none
  | _ => none

/-- Claim-side numeric reading of a cell, null read as 0. -/
def jsonInt0 : Json → Int
  | .num n => n
  | _ => 0

/-- Claim-side count of non-null cells of a column. -/
def nonNullCount (vs : List Json) : Nat :=
  (vs.filter (fun v => v ≠ Json.null)).length

/-- Claim-side sum of a token column, null cells contributing 0. -/
def tokSum (vs : List Json) : Int := (vs.map jsonInt0).sum

/-- Claim-side mean of a token column over its non-null cells, rounded to
two decimals; none when no non-null cell exists. -/
def meanSpec (vs : List Json) : Option Rat :=
  if nonNullCount vs = 0 then none
  else some (pandasRound2 ((tokSum vs : Rat) / (nonNullCount vs : Rat)))

/-- Claim-side property of one reported group row: count of non-null
inputTokens, sums over the group, and means rounded to two decimals. -/
def groupMetricsOk (g : List DfRow) (m : AggMetrics) : Prop :=
  m.inputCount = nonNullCount (g.map (fun r => r.inputTokens)) ∧
  m.inputSum = tokSum (g.map (fun r => r.inputTokens)) ∧
  m.inputMean = meanSpec (g.map (fun r => r.inputTokens)) ∧
  m.completionSum = tokSum (g.map (fun r => r.completionTokens)) ∧
  m.completionMean = meanSpec (g.map (fun r => r.completionTokens)) ∧
  m.totalSum = tokSum (g.map (fun r => r.totalTokens)) ∧
  m.totalMean = meanSpec (g.map (fun r => r.totalTokens))

/-- Claim-side property of the reported per-group model list: the distinct
modelId values of the group as an unordered (duplicate-free) list. -/
def modelsListOk (g : List DfRow) (ms : List Json) : Prop :=
  ms.Nodup ∧ ∀ x, x ∈ ms ↔ x ∈ g.map (fun r => r.modelId)

theorem except_bind_ok {ε α β : Type} {x : Except ε α} {f : α → Except ε β} {b : β} :
    (x >>= f = Except.ok b) ↔ ∃ a, x = Except.ok a ∧ f a = Except.ok b := by
  cases x <;> simp [Except.bind, Bind.bind]

theorem except_pure_ok {ε α : Type} {a b : α} :
    ((pure a : Except ε α) = Except.ok b) ↔ a = b := by
  simp [pure, Except.pure]

theorem json_get_ok_inv {j : Json} {k : String} {d v : Json}
    (h : Json.get j k d = Except.ok v) :
    ∃ fs, j = Json.obj fs ∧ v = (fs.lookup k).getD d := by
  cases j <;> simp [Json.get] at h
  case obj fs => exact ⟨fs, rfl, h.symm⟩

theorem pyAdd_null_left (x : Json) : pyAdd Json.null x = Except.error PyExc.typeError := by
  cases x <;> rfl

theorem pyAdd_null_right (x : Json) : pyAdd x Json.null = Except.error PyExc.typeError := by
  cases x <;> rfl

theorem processEvent_ok_inv {j : Json} {r : FilteredEvent}
    (h : processEvent (RawMessage.parsed j) = Except.ok r) :
    ∃ fs inObj outObj, j = Json.obj fs ∧
      (fs.lookup "input").getD (Json.obj .nil) = Json.obj inObj ∧
      (fs.lookup "output").getD (Json.obj .nil) = Json.obj outObj ∧
      r.timestamp = (fs.lookup "timestamp").getD Json.null ∧
      r.region = (fs.lookup "region").getD Json.null ∧
      r.modelId = (fs.lookup "modelId").getD Json.null ∧
      r.inputTokens = (inObj.lookup "inputTokenCount").getD Json.null ∧
      r.completionTokens = (outObj.lookup "outputTokenCount").getD Json.null ∧
      pyAdd ((inObj.lookup "inputTokenCount").getD (Json.num 0))
            ((outObj.lookup "outputTokenCount").getD (Json.num 0)) = Except.ok r.totalTokens := by
  simp only [processEvent, except_bind_ok, except_pure_ok] at h
  obtain ⟨p, hp, ts, hts, rg, hrg, mid, hmid, idn, hidn, uid, huid, inp, hinp, itc, hitc,
    outp, houtp, otc, hotc, inp2, hinp2, itc0, hitc0, outp2, houtp2, otc0, hotc0,
    tot, htot, hr⟩ := h
  obtain ⟨fs, hj, hts'⟩ := json_get_ok_inv hts
  subst hj
  obtain ⟨inObj, hinObj, hitc'⟩ := json_get_ok_inv hitc
  obtain ⟨outObj, houtObj, hotc'⟩ := json_get_ok_inv hotc
  obtain ⟨inObj2, hinObj2, hitc0'⟩ := json_get_ok_inv hitc0
  obtain ⟨outObj2, houtObj2, hotc0'⟩ := json_get_ok_inv hotc0
  simp only [Json.get, Except.ok.injEq] at hinp houtp hinp2 houtp2 hrg hmid
  have einp : inp = (fs.lookup "input").getD (Json.obj .nil) := hinp.symm
  have einp2 : inp2 = (fs.lookup "input").getD (Json.obj .nil) := hinp2.symm
  have eoutp : outp = (fs.lookup "output").getD (Json.obj .nil) := houtp.symm
  have eoutp2 : outp2 = (fs.lookup "output").getD (Json.obj .nil) := houtp2.symm
  have einObj : (fs.lookup "input").getD (Json.obj .nil) = Json.obj inObj := by
    rw [← einp, hinObj]
  have einObj2 : inObj2 = inObj := by
    have : Json.obj inObj2 = Json.obj inObj := by rw [← hinObj2, ← hinObj, einp, einp2]
    exact (Json.obj.injEq _ _).mp this
  have eoutObj : (fs.lookup "output").getD (Json.obj .nil) = Json.obj outObj := by
    rw [← eoutp, houtObj]
  have eoutObj2 : outObj2 = outObj := by
    have : Json.obj outObj2 = Json.obj outObj := by rw [← houtObj2, ← houtObj, eoutp, eoutp2]
    exact (Json.obj.injEq _ _).mp this
  refine ⟨fs, inObj, outObj, rfl, einObj, eoutObj, ?_, ?_, ?_, ?_, ?_, ?_⟩
  · rw [← hr]; exact hts'
  · rw [← hr]; exact hrg.symm
  · rw [← hr]; exact hmid.symm
  · rw [← hr]; exact hitc'
  · rw [← hr]; exact hotc'
  · rw [← hr]
    show pyAdd _ _ = Except.ok tot
    rw [hitc0', hotc0', einObj2, eoutObj2] at htot
    exact htot

/-- Concrete envelope with modelId m1, 10 input tokens, 5 output tokens. -/
def goodEnv : Json := Json.mkObj [("modelId", Json.str "m1"),
  ("input", Json.mkObj [("inputTokenCount", Json.num 10)]),
  ("output", Json.mkObj [("outputTokenCount", Json.num 5)])]

/-- Record extracted from goodEnv. -/
def goodRec : FilteredEvent :=
  ⟨Json.null, Json.null, Json.str "m1", Json.null, Json.num 10, Json.num 5, Json.num 15⟩

/-- Concrete envelope with modelId m1, 20 input tokens, 0 output tokens. -/
def goodEnv2 : Json := Json.mkObj [("modelId", Json.str "m1"),
  ("input", Json.mkObj [("inputTokenCount", Json.num 20)]),
  ("output", Json.mkObj [("outputTokenCount", Json.num 0)])]

/-- Record extracted from goodEnv2. -/
def goodRec2 : FilteredEvent :=
  ⟨Json.null, Json.null, Json.str "m1", Json.null, Json.num 20, Json.num 0, Json.num 20⟩

/-- Record extracted from the empty envelope. -/
def emptyRec : FilteredEvent :=
  ⟨Json.null, Json.null, Json.null, Json.null, Json.null, Json.null, Json.num 0⟩

/-- Event whose message parses to goodEnv. -/
def goodEvent : RawLogEvent := ⟨RawMessage.parsed goodEnv⟩

/-- Event whose message parses to goodEnv2. -/
def goodEvent2 : RawLogEvent := ⟨RawMessage.parsed goodEnv2⟩

/-- Event whose message is not valid JSON. -/
def badJsonEvent : RawLogEvent := ⟨RawMessage.invalid⟩

/-- Event whose message is valid JSON but not an object: the first chained
.get raises AttributeError, which no per-event handler catches. -/
def badShapeEvent : RawLogEvent := ⟨RawMessage.parsed (Json.num 5)⟩

/-- Log service yielding no events. -/
def emptyWorld : Int × Int → FetchBehavior := fun _ => ⟨[], none⟩

/-- Log service yielding one page with one good event. -/
def oneEventWorld : Int × Int → FetchBehavior := fun _ => ⟨[[goodEvent]], none⟩

/-- Log service yielding a page with a malformed-shape event between two
good events. -/
def mixedWorld : Int × Int → FetchBehavior := fun _ =>
  ⟨[[goodEvent, badShapeEvent, goodEvent2]], none⟩

/-- Log service raising ResourceNotFoundException immediately. -/
def notFoundWorld : Int × Int → FetchBehavior := fun _ =>
  ⟨[], some FetchErr.resourceNotFound⟩

/-- Log service yielding one good page and then failing. -/
def droppedWorld : Int × Int → FetchBehavior := fun _ =>
  ⟨[[goodEvent]], some (FetchErr.otherError "connection reset")⟩

/-- to_datetime stand-in mapping every cell to NaT. -/
def nullDt : Json → Except String (Option PyDateTime) := fun _ => Except.ok none

theorem pyAdd_getD_orZero {o1 o2 : Option Json} {t : Json}
    (h : pyAdd (o1.getD (Json.num 0)) (o2.getD (Json.num 0)) = Except.ok t) :
    pyAdd (orZero (o1.getD Json.null)) (orZero (o2.getD Json.null)) = Except.ok t := by
  have h2 : ∀ w, o2 = some w → w ≠ Json.null := by
    intro w hw hnull
    subst hw; subst hnull
    rw [show (some Json.null).getD (Json.num 0) = Json.null from rfl, pyAdd_null_right] at h
    exact Except.noConfusion h
  have h1 : ∀ w, o1 = some w → w ≠ Json.null := by
    intro w hw hnull
    subst hw; subst hnull
    rw [show (some Json.null).getD (Json.num 0) = Json.null from rfl, pyAdd_null_left] at h
    exact Except.noConfusion h
  cases o1 with
  | none =>
    cases o2 with
    | none => simpa [orZero] using h
    | some w => simpa [orZero, h2 w rfl] using h
  | some v =>
    cases o2 with
    | none => simpa [orZero, h1 v rfl] using h
    | some w => simpa [orZero, h1 v rfl, h2 w rfl] using h

/-- C4: every record emitted by the per-event extraction satisfies
totalTokens = inputTokens + completionTokens under the source language's
addition, a null token field (absent in the envelope) counting as 0; in
particular numeric token fields add up exactly. -/
theorem C4_total_is_sum_with_null_as_zero (raw : RawMessage) (r : FilteredEvent)
    (h : processEvent raw = Except.ok r) :
    pyAdd (orZero r.inputTokens) (orZero r.completionTokens) = Except.ok r.totalTokens ∧
    (∀ a b : Int, r.inputTokens = Json.num a → r.completionTokens = Json.num b →
       r.totalTokens = Json.num (a + b)) := by
  cases raw with
  | invalid => exact absurd h (by simp [processEvent])
  | parsed j =>
    obtain ⟨fs, inObj, outObj, hj, hin, hout, hts, hrg, hmid, hitc, hotc, htot⟩ :=
      processEvent_ok_inv h
    have main : pyAdd (orZero r.inputTokens) (orZero r.completionTokens) =
        Except.ok r.totalTokens := by
      rw [hitc, hotc]
      exact pyAdd_getD_orZero htot
    refine ⟨main, ?_⟩
    intro a b ha hb
    rw [ha, hb] at main
    simp [orZero, pyAdd] at main
    exact main.symm

/-- C4 witness: the theorem applied to the concrete envelope goodEnv. -/
theorem C4_witness :
    pyAdd (orZero goodRec.inputTokens) (orZero goodRec.completionTokens) =
      Except.ok goodRec.totalTokens :=
  (C4_total_is_sum_with_null_as_zero (RawMessage.parsed goodEnv) goodRec (by decide)).1

/-- C5 counterexample: the empty envelope lacks input.inputTokenCount, yet
the record the extraction emits for it has inputTokens null, not 0. -/
theorem C5_counterexample_missing_field_is_null :
    envField (Json.obj .nil) "input" "inputTokenCount" = none ∧
    processEvent (RawMessage.parsed (Json.obj .nil)) = Except.ok emptyRec ∧
    emptyRec.inputTokens ≠ Json.num 0 := by
  refine ⟨rfl, by decide, by decide⟩

/-- C5 amended: the 0-default applies only inside the totalTokens
computation; the projected inputTokens and completionTokens fields are
null (None) when the corresponding envelope field is absent, and with both
absent totalTokens is 0. -/
theorem C5_amended_missing_fields_project_to_null (j : Json) (r : FilteredEvent)
    (h : processEvent (RawMessage.parsed j) = Except.ok r) :
    (envField j "input" "inputTokenCount" = none → r.inputTokens = Json.null) ∧
    (envField j "output" "outputTokenCount" = none → r.completionTokens = Json.null) ∧
    (envField j "input" "inputTokenCount" = none →
     envField j "output" "outputTokenCount" = none → r.totalTokens = Json.num 0) := by
  obtain ⟨fs, inObj, outObj, hj, hin, hout, hts, hrg, hmid, hitc, hotc, htot⟩ :=
    processEvent_ok_inv h
  subst hj
  have hinEnv : envField (Json.obj fs) "input" "inputTokenCount" = none →
      inObj.lookup "inputTokenCount" = none := by
    intro he
    cases hl : fs.lookup "input" with
    | none =>
      rw [hl] at hin
      have hnil : JsonObj.nil = inObj := by simpa using hin
      rw [← hnil]
      rfl
    | some v =>
      rw [hl] at hin
      simp only [Option.getD] at hin
      subst hin
      simpa [envField, hl] using he
  have houtEnv : envField (Json.obj fs) "output" "outputTokenCount" = none →
      outObj.lookup "outputTokenCount" = none := by
    intro he
    cases hl : fs.lookup "output" with
    | none =>
      rw [hl] at hout
      have hnil : JsonObj.nil = outObj := by simpa using hout
      rw [← hnil]
      rfl
    | some v =>
      rw [hl] at hout
      simp only [Option.getD] at hout
      subst hout
      simpa [envField, hl] using he
  refine ⟨?_, ?_, ?_⟩
  · intro he
    rw [hitc, hinEnv he]
    rfl
  · intro he
    rw [hotc, houtEnv he]
    rfl
  · intro he1 he2
    rw [hinEnv he1, houtEnv he2] at htot
    simp [pyAdd] at htot
    exact htot.symm

/-- C5 amended witness: the theorem applied to the empty envelope. -/
theorem C5_amended_witness :
    emptyRec.inputTokens = Json.null ∧ emptyRec.completionTokens = Json.null ∧
    emptyRec.totalTokens = Json.num 0 :=
  have h := C5_amended_missing_fields_project_to_null (Json.obj .nil) emptyRec (by decide)
  ⟨h.1 rfl, h.2.1 rfl, h.2.2 rfl rfl⟩

/-- C1 counterexample: days = -1 passes the parameter model's validation,
and the call proceeds to fetch: against a log source holding one event the
tool call returns data (and its result depends on the log source), instead
of rejecting with a parameter error before any fetch. -/
theorem C1_counterexample_negative_days_accepted :
    DaysParam.validate (ParamVal.intVal (-1)) = Except.ok { days := -1 } ∧
    call_get_bedrock_logs_df 1000000 oneEventWorld nullDt (ParamVal.intVal (-1)) =
      Except.ok [⟨none, Json.null, Json.str "m1", Json.null, Json.num 10, Json.num 5,
        Json.num 15⟩] ∧
    call_get_bedrock_logs_df 1000000 oneEventWorld nullDt (ParamVal.intVal (-1)) ≠
      call_get_bedrock_logs_df 1000000 emptyWorld nullDt (ParamVal.intVal (-1)) := by
  refine ⟨rfl, by decide, by decide⟩

/-- C1 amended: a non-integer days value is rejected by pydantic with a
parameter error before any fetch occurs (the result is the same for every
log-source behavior), and an omitted days defaults to 7; but every integer
value, including negative ones, passes validation and the tool body runs
against the fetch. -/
theorem C1_amended_days_validation :
    (DaysParam.validate ParamVal.missing = Except.ok { days := 7 }) ∧
    (∀ i : Int, DaysParam.validate (ParamVal.intVal i) = Except.ok { days := i }) ∧
    (∀ (d : String) (now : Rat) (world world2 : Int × Int → FetchBehavior)
       (dt : Json → Except String (Option PyDateTime)), ∃ msg,
      call_get_bedrock_logs_df now world dt (ParamVal.nonIntVal d) =
        Except.error (ToolCallErr.paramError msg) ∧
      call_get_bedrock_logs_df now world dt (ParamVal.nonIntVal d) =
        call_get_bedrock_logs_df now world2 dt (ParamVal.nonIntVal d) ∧
      call_get_model_usage_stats now world dt (ParamVal.nonIntVal d) =
        Except.error (ToolCallErr.paramError msg) ∧
      call_get_user_usage_stats now world dt (ParamVal.nonIntVal d) =
        Except.error (ToolCallErr.paramError msg) ∧
      call_get_daily_usage_stats now world dt (ParamVal.nonIntVal d) =
        Except.error (ToolCallErr.paramError msg)) ∧
    (∀ (i : Int) (now : Rat) (world : Int × Int → FetchBehavior)
       (dt : Json → Except String (Option PyDateTime)),
      call_get_bedrock_logs_df now world dt (ParamVal.intVal i) =
        (get_bedrock_logs_df now world dt { days := i }).mapError ToolCallErr.raised) := by
  refine ⟨rfl, fun i => rfl, ?_, fun i now world dt => rfl⟩
  intro d now world world2 dt
  exact ⟨_, rfl, rfl, rfl, rfl, rfl⟩

/-- C3: get_bedrock_logs never propagates an exception: a successful try
block returns its records with no diagnostic, ResourceNotFoundException
yields the empty list plus the not-found diagnostic, and every other
escaped exception yields the empty list plus the generic diagnostic. -/
theorem C3_fetch_faults_never_propagate (now : Rat) (world : Int × Int → FetchBehavior)
    (days : Int) :
    (∀ l, tryBlock (world (timeWindowMs now days)) = Except.ok l →
       get_bedrock_logs now world days = ⟨l, []⟩) ∧
    (tryBlock (world (timeWindowMs now days)) =
        Except.error (TryErr.fetch FetchErr.resourceNotFound) →
       get_bedrock_logs now world days = ⟨[], [notFoundDiagnostic]⟩) ∧
    (∀ e, tryBlock (world (timeWindowMs now days)) = Except.error e →
       e ≠ TryErr.fetch FetchErr.resourceNotFound →
       get_bedrock_logs now world days = ⟨[], [errorDiagnostic e]⟩) := by
  refine ⟨?_, ?_, ?_⟩
  · intro l h
    simp [get_bedrock_logs, h]
  · intro h
    simp [get_bedrock_logs, h]
  · intro e h hne
    cases e with
    | py pe => simp [get_bedrock_logs, h]
    | fetch fe =>
      cases fe with
      | resourceNotFound => exact absurd rfl hne
      | otherError s => simp [get_bedrock_logs, h]

/-- C3 witness: the theorem applied to a log source whose group/stream does
not exist. -/
theorem C3_witness :
    get_bedrock_logs 1000000 notFoundWorld 7 = ⟨[], [notFoundDiagnostic]⟩ :=
  (C3_fetch_faults_never_propagate 1000000 notFoundWorld 7).2.1 rfl

/-- C6: whenever the fetch yields no records, all four tools return an
explicitly empty result and no fault. -/
theorem C6_empty_fetch_empty_results (now : Rat) (world : Int × Int → FetchBehavior)
    (dt : Json → Except String (Option PyDateTime)) (p : DaysParam)
    (h : (get_bedrock_logs now world p.days).logs = []) :
    get_bedrock_logs_df now world dt p = Except.ok [] ∧
    get_model_usage_stats now world dt p = Except.ok [] ∧
    get_user_usage_stats now world dt p = Except.ok [] ∧
    get_daily_usage_stats now world dt p = Except.ok [] := by
  have hdf : get_bedrock_logs_df now world dt p = Except.ok [] := by
    simp [get_bedrock_logs_df, h]
  refine ⟨hdf, ?_, ?_, ?_⟩ <;>
    simp [get_model_usage_stats, get_user_usage_stats, get_daily_usage_stats, hdf,
      Bind.bind, Except.bind, modelStatsTable, userStatsTable, dailyStatsTable]

/-- C6 witness: the theorem applied to a log source yielding no events. -/
theorem C6_witness :
    get_bedrock_logs_df 1000000 emptyWorld nullDt ⟨7⟩ = Except.ok [] ∧
    get_model_usage_stats 1000000 emptyWorld nullDt ⟨7⟩ = Except.ok [] ∧
    get_user_usage_stats 1000000 emptyWorld nullDt ⟨7⟩ = Except.ok [] ∧
    get_daily_usage_stats 1000000 emptyWorld nullDt ⟨7⟩ = Except.ok [] :=
  C6_empty_fetch_empty_results 1000000 emptyWorld nullDt ⟨7⟩ rfl

/-- C9: for every days_back ≥ 0 whose window start lies at or after the
epoch, the computed millisecond window satisfies end - start =
days_back * 86400000 exactly. -/
theorem C9_window_duration (now : Rat) (days : Int) (h0 : 0 ≤ days)
    (h1 : (days * 86400 : Rat) ≤ now) :
    (timeWindowMs now days).2 - (timeWindowMs now days).1 = days * 86400000 := by
  have hd : (0:Rat) ≤ (days : Rat) * 86400 := by
    have : (0:Rat) ≤ (days : Rat) := by exact_mod_cast h0
    positivity
  have hnow : (0:Rat) ≤ now := le_trans hd h1
  have hstart : (0:Rat) ≤ now - (days : Rat) * 86400 := by linarith
  have c1 : (0:Rat) ≤ (now - (days : Rat) * 86400) * 1000 := by positivity
  have c2 : (0:Rat) ≤ now * 1000 := by positivity
  simp only [timeWindowMs, pyInt, if_pos c1, if_pos c2]
  have key : (now - (days : Rat) * 86400) * 1000 = now * 1000 - ((days * 86400000 : Int) : Rat) := by
    push_cast
    ring
  rw [key, Int.floor_sub_int]
  ring

/-- C9 witness: the theorem applied at now = 1000000 s, days_back = 7. -/
theorem C9_witness :
    (timeWindowMs 1000000 7).2 - (timeWindowMs 1000000 7).1 = 7 * 86400000 :=
  C9_window_duration 1000000 7 (by norm_num) (by norm_num)

theorem processEvents_ok (evts : List RawLogEvent) :
    ∀ l, processEvents evts = Except.ok l →
    l = evts.filterMap (fun e => (processEvent e.message).toOption) := by
  induction evts with
  | nil =>
    intro l h
    simp only [processEvents, Except.ok.injEq] at h
    subst h
    rfl
  | cons e rest ih =>
    intro l h
    cases hpe : processEvent e.message with
    | ok fe =>
      simp only [processEvents, hpe] at h
      cases hr : processEvents rest with
      | error ex =>
        rw [hr] at h
        simp [Except.map] at h
      | ok lr =>
        rw [hr] at h
        simp only [Except.map, Except.ok.injEq] at h
        rw [← h, List.filterMap_cons, hpe]
        simp [Except.toOption, ih lr hr]
    | error exc =>
      cases exc with
      | jsonDecodeError =>
        simp only [processEvents, hpe] at h
        rw [List.filterMap_cons, hpe]
        simpa [Except.toOption] using ih l h
      | keyError =>
        simp only [processEvents, hpe] at h
        rw [List.filterMap_cons, hpe]
        simpa [Except.toOption] using ih l h
      | attributeError => simp [processEvents, hpe] at h
      | typeError => simp [processEvents, hpe] at h

theorem processPages_ok (pages : List (List RawLogEvent)) :
    ∀ l, processPages pages = Except.ok l →
    l = pages.flatten.filterMap (fun e => (processEvent e.message).toOption) := by
  induction pages with
  | nil =>
    intro l h
    simp only [processPages, Except.ok.injEq] at h
    subst h
    rfl
  | cons p rest ih =>
    intro l h
    simp only [processPages, except_bind_ok, except_pure_ok] at h
    obtain ⟨a, ha, b, hb, hl⟩ := h
    rw [← hl, processEvents_ok p a ha, ih b hb, List.flatten_cons, List.filterMap_append]

theorem get_logs_empty_of_tryBlock_error (now : Rat) (world : Int × Int → FetchBehavior)
    (days : Int) (err : TryErr)
    (h : tryBlock (world (timeWindowMs now days)) = Except.error err) :
    (get_bedrock_logs now world days).logs = [] := by
  cases err with
  | py pe => simp [get_bedrock_logs, h]
  | fetch fe => cases fe <;> simp [get_bedrock_logs, h]

/-- C8: the extraction emits at most one record per input event, and the
records returned by get_bedrock_logs appear in the order of the input
events (page order, then in-page order), with no re-sorting. -/
theorem C8_extraction_order_and_length (now : Rat) (world : Int × Int → FetchBehavior)
    (days : Int) :
    (get_bedrock_logs now world days).logs.length ≤
      (world (timeWindowMs now days)).pages.flatten.length ∧
    (get_bedrock_logs now world days).logs.Sublist
      ((world (timeWindowMs now days)).pages.flatten.filterMap
        (fun e => (processEvent e.message).toOption)) := by
  cases htb : tryBlock (world (timeWindowMs now days)) with
  | ok l =>
    have hlogs : get_bedrock_logs now world days = ⟨l, []⟩ := by
      simp [get_bedrock_logs, htb]
    have hpp : processPages (world (timeWindowMs now days)).pages = Except.ok l := by
      unfold tryBlock at htb
      cases hp : processPages (world (timeWindowMs now days)).pages with
      | error ex =>
        rw [hp] at htb
        exact absurd htb (by simp)
      | ok lp =>
        rw [hp] at htb
        cases hap : (world (timeWindowMs now days)).afterPages with
        | none =>
          rw [hap] at htb
          simp only [Except.ok.injEq] at htb
          rw [← htb]
        | some e =>
          rw [hap] at htb
          exact absurd htb (by simp)
    have heq := processPages_ok _ l hpp
    rw [hlogs]
    refine ⟨?_, ?_⟩
    · rw [heq]
      exact List.length_filterMap_le _ _
    · exact heq ▸ List.Sublist.refl _
  | error e =>
    have hlogs : (get_bedrock_logs now world days).logs = [] :=
      get_logs_empty_of_tryBlock_error now world days e htb
    rw [hlogs]
    exact ⟨Nat.zero_le _, List.nil_sublist _⟩

theorem processEvents_hard_error (evts : List RawLogEvent) (e : RawLogEvent) (exc : PyExc)
    (he : e ∈ evts) (hpe : processEvent e.message = Except.error exc)
    (h1 : exc ≠ PyExc.jsonDecodeError) (h2 : exc ≠ PyExc.keyError) :
    ∃ excr, processEvents evts = Except.error excr := by
  induction evts with
  | nil => exact absurd he (List.not_mem_nil e)
  | cons x rest ih =>
    rcases List.mem_cons.mp he with hex | hrest
    · subst hex
      cases exc with
      | jsonDecodeError => exact absurd rfl h1
      | keyError => exact absurd rfl h2
      | attributeError => exact ⟨PyExc.attributeError, by simp [processEvents, hpe]⟩
      | typeError => exact ⟨PyExc.typeError, by simp [processEvents, hpe]⟩
    · obtain ⟨excr, hr⟩ := ih hrest
      cases hx : processEvent x.message with
      | ok fe => exact ⟨excr, by simp [processEvents, hx, hr, Except.map]⟩
      | error excx =>
        cases excx with
        | jsonDecodeError => exact ⟨excr, by simp [processEvents, hx, hr]⟩
        | keyError => exact ⟨excr, by simp [processEvents, hx, hr]⟩
        | attributeError => exact ⟨PyExc.attributeError, by simp [processEvents, hx]⟩
        | typeError => exact ⟨PyExc.typeError, by simp [processEvents, hx]⟩

theorem processPages_hard_error (pages : List (List RawLogEvent)) (e : RawLogEvent)
    (exc : PyExc) (he : e ∈ pages.flatten)
    (hpe : processEvent e.message = Except.error exc)
    (h1 : exc ≠ PyExc.jsonDecodeError) (h2 : exc ≠ PyExc.keyError) :
    ∃ excr, processPages pages = Except.error excr := by
  induction pages with
  | nil => simp at he
  | cons p rest ih =>
    rw [List.flatten_cons, List.mem_append] at he
    rcases he with hp | hrest
    · obtain ⟨excr, hr⟩ := processEvents_hard_error p e exc hp hpe h1 h2
      exact ⟨excr, by simp [processPages, hr, Bind.bind, Except.bind]⟩
    · obtain ⟨excr, hr⟩ := ih hrest
      cases hp : processEvents p with
      | error ex => exact ⟨ex, by simp [processPages, hp, Bind.bind, Except.bind]⟩
      | ok a => exact ⟨excr, by simp [processPages, hp, hr, Bind.bind, Except.bind]⟩

/-- C2 counterexample: in the batch [good, bad-shape, good] the middle
event raises AttributeError — a field-access fault other than the handled
missing-key case — and instead of being skipped individually it empties
the whole result: the adjacent valid events are not extracted. -/
theorem C2_counterexample_nonkey_fault_aborts_batch :
    processEvent badShapeEvent.message = Except.error PyExc.attributeError ∧
    processEvent goodEvent.message = Except.ok goodRec ∧
    processEvent goodEvent2.message = Except.ok goodRec2 ∧
    get_bedrock_logs 1000000 mixedWorld 7 =
      ⟨[], [errorDiagnostic (TryErr.py PyExc.attributeError)]⟩ :=
  ⟨by decide, by decide, by decide, by decide⟩

/-- C2 amended: events failing JSON parsing or raising the missing-key
KeyError are skipped individually and the remaining events of the batch
are extracted in order; but an event raising any other field-access fault
(e.g. the AttributeError from a non-object message body) escapes the
per-event handlers and the whole fetch returns no records. -/
theorem C2_amended_skip_only_json_and_key_errors :
    (∀ evts : List RawLogEvent,
      (∀ e ∈ evts, processEvent e.message = Except.error PyExc.jsonDecodeError ∨
         processEvent e.message = Except.error PyExc.keyError ∨
         ∃ r, processEvent e.message = Except.ok r) →
      processEvents evts = Except.ok
        (evts.filterMap (fun e => (processEvent e.message).toOption))) ∧
    (∀ (now : Rat) (world : Int × Int → FetchBehavior) (days : Int) (e : RawLogEvent)
       (exc : PyExc), e ∈ (world (timeWindowMs now days)).pages.flatten →
      processEvent e.message = Except.error exc →
      exc ≠ PyExc.jsonDecodeError → exc ≠ PyExc.keyError →
      (get_bedrock_logs now world days).logs = []) := by
  constructor
  · intro evts hall
    induction evts with
    | nil => simp [processEvents]
    | cons x rest ih =>
      have hrest := fun e he => hall e (List.mem_cons_of_mem x he)
      rcases hall x (List.mem_cons_self x rest) with h | h | ⟨r, h⟩
      · rw [List.filterMap_cons, h]
        simpa [processEvents, h, Except.toOption] using ih hrest
      · rw [List.filterMap_cons, h]
        simpa [processEvents, h, Except.toOption] using ih hrest
      · rw [List.filterMap_cons, h]
        simp [processEvents, h, Except.toOption, Except.map, ih hrest]
  · intro now world days e exc he hpe h1 h2
    obtain ⟨excr, hr⟩ := processPages_hard_error _ e exc he hpe h1 h2
    exact get_logs_empty_of_tryBlock_error now world days (TryErr.py excr)
      (by simp [tryBlock, hr])

/-- C2 amended witness: a batch with an invalid-JSON event between two
valid events extracts exactly the two valid records, in order. -/
theorem C2_amended_witness :
    processEvents [goodEvent, badJsonEvent, goodEvent2] = Except.ok [goodRec, goodRec2] :=
  (C2_amended_skip_only_json_and_key_errors.1 [goodEvent, badJsonEvent, goodEvent2]
    (by
      intro e he
      fin_cases he
      · exact Or.inr (Or.inr ⟨goodRec, by decide⟩)
      · exact Or.inl (by decide)
      · exact Or.inr (Or.inr ⟨goodRec2, by decide⟩))).trans (by decide)

/-- C10: if any exception other than a per-event JSONDecodeError or
KeyError occurs during pagination or extraction — including after records
were already accumulated — get_bedrock_logs returns the empty list, never
a partial prefix. -/
theorem C10_fault_discards_all_records (now : Rat) (world : Int × Int → FetchBehavior)
    (days : Int)
    (h : (∃ e ∈ (world (timeWindowMs now days)).pages.flatten, ∃ exc,
            processEvent e.message = Except.error exc ∧
            exc ≠ PyExc.jsonDecodeError ∧ exc ≠ PyExc.keyError) ∨
         (world (timeWindowMs now days)).afterPages.isSome) :
    (get_bedrock_logs now world days).logs = [] := by
  rcases h with ⟨e, he, exc, hpe, h1, h2⟩ | hsome
  · obtain ⟨excr, hr⟩ := processPages_hard_error _ e exc he hpe h1 h2
    exact get_logs_empty_of_tryBlock_error now world days (TryErr.py excr)
      (by simp [tryBlock, hr])
  · cases hpp : processPages (world (timeWindowMs now days)).pages with
    | error ex =>
      exact get_logs_empty_of_tryBlock_error now world days (TryErr.py ex)
        (by simp [tryBlock, hpp])
    | ok l =>
      cases hap : (world (timeWindowMs now days)).afterPages with
      | none => rw [hap] at hsome; simp at hsome
      | some fe =>
        exact get_logs_empty_of_tryBlock_error now world days (TryErr.fetch fe)
          (by simp [tryBlock, hpp, hap])

/-- C10 witness: a fetch that yields one good page — one record already
accumulated — and then fails returns no records at all. -/
theorem C10_witness : (get_bedrock_logs 1000000 droppedWorld 7).logs = [] :=
  C10_fault_discards_all_records 1000000 droppedWorld 7 (Or.inr rfl)

theorem numsOf_spec (vs : List Json) :
    ∀ ns, numsOf vs = some ns → ns.length = nonNullCount vs ∧ ns.sum = tokSum vs := by
  induction vs with
  | nil =>
    intro ns h
    simp only [numsOf, Option.some.injEq] at h
    subst h
    simp [nonNullCount, tokSum]
  | cons v rest ih =>
    intro ns h
    cases v with
    | null =>
      simp only [numsOf] at h
      have hr := ih ns h
      simp [nonNullCount, tokSum, jsonInt0, List.filter_cons] at hr ⊢
      exact hr
    | num n =>
      simp only [numsOf] at h
      cases hr : numsOf rest with
      | none =>
        rw [hr] at h
        simp at h
      | some ms =>
        rw [hr] at h
        simp only [Option.map_some', Option.some.injEq] at h
        have hm := ih ms hr
        rw [← h]
        constructor
        · simp [nonNullCount, List.filter_cons, hm.1]
        · simp [tokSum, jsonInt0, List.sum_cons] at hm ⊢
          simp [hm.2, tokSum]
    | bool b => simp [numsOf] at h
    | str s => simp [numsOf] at h
    | arr a => simp [numsOf] at h
    | obj o => simp [numsOf] at h

theorem meanOf_round_eq_meanSpec (ns : List Int) (col : List Json)
    (hlen : ns.length = nonNullCount col) (hsum : ns.sum = tokSum col) :
    (meanOf ns).map pandasRound2 = meanSpec col := by
  unfold meanOf meanSpec
  by_cases he : ns.isEmpty
  · rw [List.isEmpty_iff] at he
    subst he
    simp at hlen
    rw [if_pos (by simp), if_pos hlen.symm]
    rfl
  · have hlen0 : ns.length ≠ 0 := by
      intro h0
      exact he (by simpa [List.isEmpty_iff, List.length_eq_zero] using h0)
    rw [if_neg (by simpa [List.isEmpty_iff, List.length_eq_zero] using hlen0),
      if_neg (by rw [← hlen]; exact hlen0)]
    simp only [Option.map_some']
    rw [hsum, hlen]

theorem aggGroup_ok_spec (g : List DfRow) (m : AggMetrics)
    (h : aggGroup g = Except.ok m) : groupMetricsOk g m := by
  unfold aggGroup at h
  cases ha : aggMetricsOf g with
  | none =>
    rw [ha] at h
    exact absurd h (by simp)
  | some m0 =>
    rw [ha] at h
    simp only [Except.ok.injEq] at h
    subst h
    unfold aggMetricsOf at ha
    cases hins : numsOf (g.map (fun r => r.inputTokens)) with
    | none => rw [hins] at ha; simp at ha
    | some ins =>
      cases hcomps : numsOf (g.map (fun r => r.completionTokens)) with
      | none => rw [hins, hcomps] at ha; simp at ha
      | some comps =>
        cases htots : numsOf (g.map (fun r => r.totalTokens)) with
        | none => rw [hins, hcomps, htots] at ha; simp at ha
        | some tots =>
          rw [hins, hcomps, htots] at ha
          simp only [Option.some.injEq] at ha
          subst ha
          obtain ⟨hl1, hs1⟩ := numsOf_spec _ ins hins
          obtain ⟨hl2, hs2⟩ := numsOf_spec _ comps hcomps
          obtain ⟨hl3, hs3⟩ := numsOf_spec _ tots htots
          exact ⟨hl1, hs1, meanOf_round_eq_meanSpec ins _ hl1 hs1, hs2,
            meanOf_round_eq_meanSpec comps _ hl2 hs2, hs3,
            meanOf_round_eq_meanSpec tots _ hl3 hs3⟩

theorem buildTable_ok_mem {κ ρ : Type} (mk : κ × List DfRow → AggMetrics → ρ)
    (gs : List (κ × List DfRow)) :
    ∀ t, buildTable mk gs = Except.ok t → ∀ y ∈ t,
      ∃ g ∈ gs, ∃ m, aggGroup g.2 = Except.ok m ∧ y = mk g m := by
  induction gs with
  | nil =>
    intro t h y hy
    simp only [buildTable, Except.ok.injEq] at h
    subst h
    simp at hy
  | cons g rest ih =>
    intro t h y hy
    simp only [buildTable, except_bind_ok, except_pure_ok] at h
    obtain ⟨m, hm, t2, ht2, hcons⟩ := h
    rw [← hcons] at hy
    rcases List.mem_cons.mp hy with hy1 | hy2
    · exact ⟨g, List.mem_cons_self g rest, m, hm, hy1⟩
    · obtain ⟨g2, hg2, m2, hm2, hy3⟩ := ih t2 ht2 y hy2
      exact ⟨g2, List.mem_cons_of_mem g hg2, m2, hm2, hy3⟩

theorem groupRows_mem {κ : Type} [DecidableEq κ] (key : DfRow → Option κ)
    (df : List DfRow) (k : κ) (rs : List DfRow)
    (h : (k, rs) ∈ groupRows key df) : rs = df.filter (fun r => key r = some k) := by
  unfold groupRows at h
  obtain ⟨k2, hk2, heq⟩ := List.mem_map.mp h
  simp only [Prod.mk.injEq] at heq
  obtain ⟨hk, hrs⟩ := heq
  subst hk
  exact hrs.symm

theorem statsTable_models_mem_spec {κ : Type} [DecidableEq κ] (key : DfRow → Option κ)
    (df : List DfRow) (t : List (κ × AggMetrics × List Json)) (k : κ) (m : AggMetrics)
    (ms : List Json)
    (h : buildTable (fun g m => (g.1, m, (g.2.map (fun r => r.modelId)).dedup))
           (groupRows key df) = Except.ok t)
    (hm : (k, m, ms) ∈ t) :
    groupMetricsOk (df.filter (fun r => key r = some k)) m ∧
    modelsListOk (df.filter (fun r => key r = some k)) ms := by
  obtain ⟨g, hg, m0, hagg, hy⟩ := buildTable_ok_mem _ _ t h _ hm
  simp only [Prod.mk.injEq] at hy
  obtain ⟨hk, hmm, hms⟩ := hy
  subst hk
  subst hmm
  subst hms
  have hrs : g.2 = df.filter (fun r => key r = some g.1) :=
    groupRows_mem key df g.1 g.2 (by simpa using hg)
  rw [← hrs]
  exact ⟨aggGroup_ok_spec _ _ hagg,
    List.nodup_dedup _, fun x => List.mem_dedup⟩

/-- C7: for every record collection and every group row produced by any of
the three aggregations, the reported inputTokens metrics are the count of
non-null values, their sum, and their mean rounded to 2 decimals; the
completionTokens and totalTokens metrics are sum and mean rounded to 2
decimals; the group is exactly the rows holding the group key; and the
per-user and per-day tables additionally report the distinct modelId
values of the group as a duplicate-free list (the per-model table has no
such column in its row type). -/
theorem C7_aggregation_metrics (df : List DfRow) :
    (∀ t k m, modelStatsTable df = Except.ok t → (k, m) ∈ t →
       groupMetricsOk (df.filter (fun r => modelKey r = some k)) m) ∧
    (∀ t k m ms, userStatsTable df = Except.ok t → (k, m, ms) ∈ t →
       groupMetricsOk (df.filter (fun r => userKey r = some k)) m ∧
       modelsListOk (df.filter (fun r => userKey r = some k)) ms) ∧
    (∀ t k m ms, dailyStatsTable df = Except.ok t → (k, m, ms) ∈ t →
       groupMetricsOk (df.filter (fun r => dateKey r = some k)) m ∧
       modelsListOk (df.filter (fun r => dateKey r = some k)) ms) := by
  refine ⟨?_, ?_, ?_⟩
  · intro t k m h hm
    unfold modelStatsTable at h
    by_cases he : df.isEmpty
    · rw [if_pos he] at h
      simp only [Except.ok.injEq] at h
      subst h
      simp at hm
    · rw [if_neg he] at h
      obtain ⟨g, hg, m0, hagg, hy⟩ := buildTable_ok_mem _ _ t h _ hm
      simp only [Prod.mk.injEq] at hy
      obtain ⟨hk, hmm⟩ := hy
      subst hk
      subst hmm
      have hrs : g.2 = df.filter (fun r => modelKey r = some g.1) :=
        groupRows_mem modelKey df g.1 g.2 (by simpa using hg)
      rw [← hrs]
      exact aggGroup_ok_spec _ _ hagg
  · intro t k m ms h hm
    unfold userStatsTable at h
    by_cases he : df.isEmpty
    · rw [if_pos he] at h
      simp only [Except.ok.injEq] at h
      subst h
      simp at hm
    · rw [if_neg he] at h
      exact statsTable_models_mem_spec userKey df t k m ms h hm
  · intro t k m ms h hm
    unfold dailyStatsTable at h
    by_cases he : df.isEmpty
    · rw [if_pos he] at h
      simp only [Except.ok.injEq] at h
      subst h
      simp at hm
    · rw [if_neg he] at h
      exact statsTable_models_mem_spec dateKey df t k m ms h hm

/-- Two-row DataFrame for model m1: 10+5 and 20+0 tokens. -/
def dfEx : List DfRow :=
  [⟨none, Json.null, Json.str "m1", Json.null, Json.num 10, Json.num 5, Json.num 15⟩,
   ⟨none, Json.null, Json.str "m1", Json.null, Json.num 20, Json.num 0, Json.num 20⟩]

/-- Metrics reported for the single m1 group of dfEx. -/
def mEx : AggMetrics := ⟨2, 30, some 15, 5, some (5/2), 35, some (35/2)⟩

/-- C7 witness: the theorem applied to the concrete two-row collection. -/
theorem C7_witness :
    groupMetricsOk (dfEx.filter (fun r => modelKey r = some (Json.str "m1"))) mEx := by
  have hg : groupRows modelKey dfEx = [(Json.str "m1", dfEx)] := by decide
  have hins : numsOf (dfEx.map (fun r => r.inputTokens)) = some [10, 20] := by decide
  have hcomps : numsOf (dfEx.map (fun r => r.completionTokens)) = some [5, 0] := by decide
  have htots : numsOf (dfEx.map (fun r => r.totalTokens)) = some [15, 20] := by decide
  have hagg : aggGroup dfEx = Except.ok mEx := by
    unfold aggGroup aggMetricsOf
    rw [hins, hcomps, htots]
    simp only [roundMetrics, meanOf, mEx]
    norm_num [pandasRound2, roundHalfEven]
  have htable : modelStatsTable dfEx = Except.ok [(Json.str "m1", mEx)] := by
    unfold modelStatsTable
    rw [if_neg (by decide), hg]
    simp [buildTable, hagg, Bind.bind, Except.bind, Pure.pure, Except.pure]
  exact (C7_aggregation_metrics dfEx).1 [(Json.str "m1", mEx)] (Json.str "m1") mEx htable
    (by simp)
